import Mathlib

/-!
# Verification of the aresSTAGE betting-analytics code

Shallow embedding of the pricing utilities (`src/utils/pricing.py`), the
probability services (`src/services/probabilities.py`,
`src/services/team_strength.py`, `src/services/calibration.py`), the
best-price selectors of the odds client (`src/providers/odds_client.py`)
and the candidate-assembly / ranking stage of the `/api/picks/suggest`
endpoint (`src/app.py`), together with theorems settling the spec claims.

Python floats are modelled as exact numbers: the pricing utilities are
stated over an arbitrary linear ordered field (instantiated at `ℚ` for
concrete evaluation and at `ℝ` inside the probability pipeline, which
uses `exp` and `erf`).
-/

set_option linter.unusedVariables false

namespace AresStage

/-! ## `src/utils/pricing.py` -/

/-- Python `american_to_decimal(odds)`: `1 + o/100` for `o >= 0`, else `1 + 100/|o|`. -/
def american_to_decimal {α : Type*} [LinearOrderedField α] (odds : α) : α :=
  if 0 ≤ odds then 1 + odds / 100 else 1 + 100 / |odds|

/-- Python `implied_prob(odds)`: `100/(o+100)` for `o >= 0`, else `|o|/(|o|+100)`. -/
def implied_prob {α : Type*} [LinearOrderedField α] (odds : α) : α :=
  if 0 ≤ odds then 100 / (odds + 100) else |odds| / (|odds| + 100)

/-- Python `remove_vig_two_way(p1, p2)`: normalize the pair by `s = p1+p2`;
fall back to `(0.5, 0.5)` when `s <= 0`. -/
def remove_vig_two_way {α : Type*} [LinearOrderedField α] (p1 p2 : α) : α × α :=
  let s := p1 + p2
  if s ≤ 0 then (1/2, 1/2) else (p1 / s, p2 / s)

/-- Python `ev_from_prob_and_odds(p, odds)`: expected value of a one-unit stake,
`p * payout - (1 - p)` with `payout = decimal - 1`. -/
def ev_from_prob_and_odds {α : Type*} [LinearOrderedField α] (p odds : α) : α :=
  let dec := american_to_decimal odds
  let payout := dec - 1
  p * payout - (1 - p)

/-- Python `kelly_fraction(p, odds, k, cap)`: fractional Kelly stake.  The Python
defaults are `k = 0.25` and `cap = 0.02`; here `k` and `cap` are explicit
arguments.  Returns `0.0` when `b = dec - 1 <= 0`, else
`min(k * max(0, (p*(b+1) - 1)/b), cap)`. -/
def kelly_fraction {α : Type*} [LinearOrderedField α] (p odds k cap : α) : α :=
  let dec := american_to_decimal odds
  let b := dec - 1
  let edge := p * (b + 1) - 1
  if b ≤ 0 then 0 else min (k * max 0 (edge / b)) cap

/-! ## `src/services/calibration.py` — sport-keyed constant tables.
Each Python `dict.get(sport, default)` is modelled as a conditional chain
over the dict keys with the same default. -/

/-- Python `SPREAD_SIGMA.get(sport, 12.0)`. -/
noncomputable def SPREAD_SIGMA (sport : String) : ℝ :=
  if sport = "nfl" then 13
  else if sport = "nba" then 12
  else if sport = "mlb" then 3
  else if sport = "nhl" then 9/5
  else if sport = "cfb" then 16
  else if sport = "soccer" then 3/2
  else if sport = "golf" then 5
  else 12

/-- Python `ML_MARKET_WEIGHT.get(sport, 0.9)`. -/
noncomputable def ML_MARKET_WEIGHT (sport : String) : ℝ :=
  if sport = "nfl" then 17/20
  else if sport = "nba" then 22/25
  else if sport = "mlb" then 9/10
  else if sport = "nhl" then 9/10
  else if sport = "cfb" then 4/5
  else if sport = "soccer" then 23/25
  else if sport = "golf" then 19/20
  else 9/10

/-- Python `ML_STRENGTH_SLOPE.get(sport, 2.0)`. -/
noncomputable def ML_STRENGTH_SLOPE (sport : String) : ℝ :=
  if sport = "nfl" then 3
  else if sport = "nba" then 5/2
  else if sport = "mlb" then 3/2
  else if sport = "nhl" then 3/2
  else if sport = "cfb" then 3
  else if sport = "soccer" then 6/5
  else if sport = "golf" then 1/2
  else 2

/-! ## `src/services/team_strength.py` -/

/-- The `get_team_strength` attribute of a `PlayerAnalyzer` instance.
The class in `src/player_analyzer.py` defines only `__init__`,
`get_player_injury_status`, `get_player_recent_form`, `get_key_players`,
`analyze_team_with_players`, `_calculate_injury_impact` and
`get_head_to_head_analysis`; it has no `get_team_strength` method, so the
attribute access `pa.get_team_strength` raises `AttributeError`, modelled
here as `none`. -/
noncomputable def playerAnalyzer_get_team_strength : Option (String → ℝ) := none

/-- Python `get_team_strength(sport, team)`: tries
`PlayerAnalyzer().get_team_strength(team)` and falls back to `0.5` on any
exception (`except Exception: return 0.5`). -/
noncomputable def get_team_strength (sport team : String) : ℝ :=
  match playerAnalyzer_get_team_strength with
  | some f => f team
  | none => 1/2

/-- Python `strength_delta(sport, home_team, away_team) = strength(home) - strength(away)`. -/
noncomputable def strength_delta (sport home_team away_team : String) : ℝ :=
  get_team_strength sport home_team - get_team_strength sport away_team

/-! ## `src/services/probabilities.py` -/

/-- Result dictionary with keys `home` and `away`. -/
structure HomeAway where
  home : Option ℝ
  away : Option ℝ

/-- Result dictionary with keys `over` and `under`. -/
structure OverUnder where
  over : Option ℝ
  under : Option ℝ

/-- Python `math.erf`, the Gauss error function
`erf x = (2/√π) ∫ t in [0, x], exp (-t²)`. -/
noncomputable def erf (x : ℝ) : ℝ :=
  2 / Real.sqrt Real.pi * ∫ t in (0:ℝ)..x, Real.exp (-(t^2))

/-- The local `cdf` helper of `spread_cover_probability`:
`cdf(x) = 0.5 * (1.0 + erf(x / sqrt(2.0)))`, the standard Normal CDF
expressed through `erf`. -/
noncomputable def normCdf (x : ℝ) : ℝ :=
  1/2 * (1 + erf (x / Real.sqrt 2))

/-- The `prior_home` intermediate of `ml_probability`:
`1 / (1 + exp(-slope * strength_delta))` where the code first sets
`strength_delta = _sd(sport, home, away) - 0.5`. -/
noncomputable def prior_home (sport home_team away_team : String) : ℝ :=
  1 / (1 + Real.exp (-(ML_STRENGTH_SLOPE sport) *
    (strength_delta sport home_team away_team - 1/2)))

/-- Python `ml_probability(home_team, away_team, sport, home_ml, away_ml)`:
`{None, None}` when either price is missing, else the market/prior blend
`p_home = w * ph_fair + (1-w) * prior_home`, `p_away = 1 - p_home`. -/
noncomputable def ml_probability (home_team away_team sport : String)
    (home_ml away_ml : Option ℝ) : HomeAway :=
  match home_ml, away_ml with
  | some hml, some aml =>
    let ph := implied_prob hml
    let pa := implied_prob aml
    let fair := remove_vig_two_way ph pa
    let w := ML_MARKET_WEIGHT sport
    let p_home := w * fair.1 + (1 - w) * prior_home sport home_team away_team
    ⟨some p_home, some (1 - p_home)⟩
  | _, _ => ⟨none, none⟩

/-- Python `spread_cover_probability(spread_home, sport)`:
margin ~ Normal(0, sigma); `p_home = 1 - cdf((0 - spread)/sigma)`,
`p_away = 1 - p_home`; `{None, None}` when the line is missing. -/
noncomputable def spread_cover_probability (spread_home : Option ℝ)
    (sport : String) : HomeAway :=
  match spread_home with
  | none => ⟨none, none⟩
  | some s =>
    let sigma := SPREAD_SIGMA sport
    let z := (0 - s) / sigma
    let p_home := 1 - normCdf z
    ⟨some p_home, some (1 - p_home)⟩

/-- Python `total_over_under_probability(total_line, sport)`: `{None, None}` when
the line is missing, else the conservative 50/50 baseline. -/
noncomputable def total_over_under_probability (total_line : Option ℝ) (sport : String) :
    OverUnder :=
  match total_line with
  | none => ⟨none, none⟩
  | some _ => ⟨some (1/2), some (1/2)⟩

/-! ## `src/providers/odds_client.py` — best-price selectors

The provider payload is modelled structurally: a bookmaker has optional
`title` and `key` strings and a list of markets; a market has a key
(`h2h`, `spreads`, `totals`) and outcomes; an outcome has an optional
name, point and price.  Prices and points are exact rationals. -/

/-- Outcome entry of a bookmaker market. -/
structure Outcome where
  name : Option String
  point : Option ℚ
  price : Option ℚ

/-- Market entry (`key` is `h2h`, `spreads` or `totals`). -/
structure Market where
  key : String
  outcomes : List Outcome

/-- Bookmaker entry. -/
structure Bookmaker where
  title : Option String
  key : Option String
  markets : List Market

/-- Python `a or b` for an optional string `a` (falsy means missing or empty). -/
def orStr (a : Option String) (b : String) : String :=
  match a with
  | some s => if s = "" then b else s
  | none => b

/-- Python `bm.get('title') or bm.get('key') or ''`. -/
def bmTitle (bm : Bookmaker) : String :=
  orStr bm.title (orStr bm.key "")

/-- Python `str.lower`, modelled on the character list of the string. -/
def strLower (s : String) : String :=
  ⟨s.data.map Char.toLower⟩

/-- Python `str.strip`: drop leading and trailing whitespace. -/
def strStrip (s : String) : String :=
  ⟨((s.data.dropWhile Char.isWhitespace).reverse.dropWhile
    Char.isWhitespace).reverse⟩

/-- Python `self._normalize(name)`, that is `(name or "").lower().strip()`. -/
def normalize (name : Option String) : String :=
  strStrip (strLower (orStr name ""))

/-- Python `isclose(a, b) = abs(float(a) - float(b)) < 1e-6` of the
best-price helpers. -/
def isclose (a b : ℚ) : Bool :=
  decide (|a - b| < 1/1000000)

/-- Comparison step of `best_moneyline_prices` (where `american_to_decimal`
IS in scope thanks to the function-local import): keep the incumbent quote
unless the challenger has a strictly higher decimal payout. -/
def betterQuote (current : Option (ℚ × String)) (price : ℚ) (title : String) :
    Option (ℚ × String) :=
  match current with
  | none => some (price, title)
  | some (bp, bt) =>
    if american_to_decimal bp < american_to_decimal price then some (price, title)
    else some (bp, bt)

/-- Per-outcome step of `best_moneyline_prices`: skip a missing price,
then `if name == normalize(home): ... elif name == normalize(away): ...`. -/
def mlOutcomeStep (homeN awayN title : String)
    (best : Option (ℚ × String) × Option (ℚ × String)) (o : Outcome) :
    Option (ℚ × String) × Option (ℚ × String) :=
  match o.price with
  | none => best
  | some price =>
    let name := normalize o.name
    if name = homeN then (betterQuote best.1 price title, best.2)
    else if name = awayN then (best.1, betterQuote best.2 price title)
    else best

/-- Python `best_moneyline_prices(bookmakers, home_team, away_team)`:
scan every `h2h` market of every bookmaker and keep, per side, the quote
with the highest decimal payout together with the bookmaker title. -/
def best_moneyline_prices (bookmakers : List Bookmaker)
    (home_team away_team : String) :
    Option (ℚ × String) × Option (ℚ × String) :=
  bookmakers.foldl
    (fun best bm =>
      bm.markets.foldl
        (fun b m =>
          if m.key = "h2h" then
            m.outcomes.foldl
              (mlOutcomeStep (normalize (some home_team))
                (normalize (some away_team)) (bmTitle bm)) b
          else b)
        best)
    (none, none)

/-- Runtime errors of the embedded Python fragments. -/
inductive PyError where
  | nameError
deriving DecidableEq

/-- Comparison step of `best_spread_prices`.  Unlike
`best_moneyline_prices`, this function has no local
`from utils.pricing import american_to_decimal`, and the module imports
only `os`, `requests`, `datetime`, `typing` and `pytz`; so once an
incumbent quote exists, evaluating
`american_to_decimal(best[0]) < american_to_decimal(price)` raises
`NameError`.  The first matching quote is stored without any comparison
(the `best is None` disjunct short-circuits). -/
def spreadBetter (current : Option (ℚ × String)) (price : ℚ) (title : String) :
    Except PyError (Option (ℚ × String)) :=
  match current with
  | none => .ok (some (price, title))
  | some _ => .error .nameError

/-- Guarded update of one side in `best_spread_prices`. -/
def spreadSideCheck (cond : Bool) (price : ℚ) (title : String)
    (current : Option (ℚ × String)) : Except PyError (Option (ℚ × String)) :=
  if cond then spreadBetter current price title else .ok current

/-- Python `line is not None and isclose(point, float(line))`. -/
def lineClose (line : Option ℚ) (point : ℚ) : Bool :=
  match line with
  | some l => isclose point l
  | none => false

/-- Per-outcome step of `best_spread_prices`: outcomes with a missing
price or point are skipped (the try/except around the float conversions);
then the home side and the away side are checked in order. -/
def spreadOutcomeStep (homeN awayN : String) (home_line away_line : Option ℚ)
    (title : String) (best : Option (ℚ × String) × Option (ℚ × String))
    (o : Outcome) : Except PyError (Option (ℚ × String) × Option (ℚ × String)) :=
  match o.price, o.point with
  | some price, some point => do
    let name := normalize o.name
    let bh ← spreadSideCheck (name = homeN && lineClose home_line point)
      price title best.1
    let ba ← spreadSideCheck (name = awayN && lineClose away_line point)
      price title best.2
    return (bh, ba)
  | _, _ => .ok best

/-- Python `best_spread_prices(bookmakers, home_team, away_team, home_line,
away_line)`: scan every `spreads` market; a raised `NameError` propagates
out of the whole function. -/
def best_spread_prices (bookmakers : List Bookmaker)
    (home_team away_team : String) (home_line away_line : Option ℚ) :
    Except PyError (Option (ℚ × String) × Option (ℚ × String)) :=
  bookmakers.foldlM
    (fun best bm =>
      bm.markets.foldlM
        (fun b m =>
          if m.key = "spreads" then
            m.outcomes.foldlM
              (spreadOutcomeStep (normalize (some home_team))
                (normalize (some away_team)) home_line away_line (bmTitle bm)) b
          else pure b)
        best)
    (none, none)

/-! ## `src/app.py` — candidate assembly and ranking of `/api/picks/suggest`

A candidate pick is the dictionary built at lines 647-697; `type`, `team`,
`opponent`, `line`, `price`, `p_model`, `implied_prob`, `edge`, `ev`,
`ev_per_100`, `kelly` and `source_book` are its keys.  Prices entering the
assembly are real numbers (they come validated from the game row or the
best-price selectors), so `price` and `implied_prob` are always present;
`p_model` and the fields derived from it are optional. -/

/-- Candidate pick dictionary. -/
structure Candidate where
  type : String
  team : Option String
  opponent : Option String
  line : Option ℝ
  price : Option ℝ
  p_model : Option ℝ
  implied_prob : Option ℝ
  edge : Option ℝ
  ev : Option ℝ
  ev_per_100 : Option ℝ
  kelly : Option ℝ
  source_book : Option String

/-- Common candidate construction of lines 656/663/675/684/697:
`imp = implied_prob(price)` is always a number, so
`edge = (p - imp) if p is not None else None`, and `ev`, `ev_per_100`
and `kelly` are derived from `p` the same way. -/
noncomputable def mkCandidate (ctype : String) (team opponent : Option String)
    (line : Option ℝ) (price : ℝ) (p : Option ℝ) (src : Option String) :
    Candidate :=
  let imp := implied_prob price
  { type := ctype, team := team, opponent := opponent, line := line,
    price := some price, p_model := p, implied_prob := some imp,
    edge := p.map (fun pv => pv - imp),
    ev := p.map (fun pv => ev_from_prob_and_odds pv price),
    ev_per_100 := p.map (fun pv => ev_from_prob_and_odds pv price * 100),
    kelly := p.map (fun pv => kelly_fraction pv price (1/4) (1/50)),
    source_book := src }

/-- Moneyline candidates (lines 648-663): away first, then home; each is
emitted only when its own price is present, with `p_model` taken from
`ml_probability` (which is `None`/`None` when either price is missing). -/
noncomputable def mlBlock (home_team away_team sport : String)
    (home_ml away_ml : Option ℝ) (src_home src_away : Option String) :
    List Candidate :=
  if home_ml.isSome || away_ml.isSome then
    let probs := ml_probability home_team away_team sport home_ml away_ml
    (match away_ml with
      | some aml =>
        [mkCandidate "moneyline" (some away_team) (some home_team) none aml
          probs.away src_away]
      | none => []) ++
    (match home_ml with
      | some hml =>
        [mkCandidate "moneyline" (some home_team) (some away_team) none hml
          probs.home src_home]
      | none => [])
  else []

/-- Spread candidates (lines 666-684): home at the posted line, away at the
negated line; prices default to `-110` when the selector produced nothing,
and `source_book` falls back to the game bookmaker. -/
noncomputable def spreadBlock (home_team away_team sport : String)
    (spread : Option ℝ) (best_sp_home best_sp_away : Option (ℝ × String))
    (bookmaker : Option String) : List Candidate :=
  match spread with
  | none => []
  | some s =>
    let probs := spread_cover_probability (some s) sport
    [mkCandidate "spread" (some home_team) (some away_team) (some s)
        (match best_sp_home with | some q => q.1 | none => -110) probs.home
        (match best_sp_home with | some q => some q.2 | none => bookmaker),
      mkCandidate "spread" (some away_team) (some home_team) (some (-s))
        (match best_sp_away with | some q => q.1 | none => -110) probs.away
        (match best_sp_away with | some q => some q.2 | none => bookmaker)]

/-- Total candidates (lines 687-697): over then under, neutral
probabilities, prices defaulting to `-110`. -/
noncomputable def totalBlock (sport : String) (total : Option ℝ)
    (best_tot_over best_tot_under : Option (ℝ × String))
    (bookmaker : Option String) : List Candidate :=
  match total with
  | none => []
  | some t =>
    let probs := total_over_under_probability (some t) sport
    [mkCandidate "total_over" none none (some t)
        (match best_tot_over with | some q => q.1 | none => -110) probs.over
        (match best_tot_over with | some q => some q.2 | none => bookmaker),
      mkCandidate "total_under" none none (some t)
        (match best_tot_under with | some q => q.1 | none => -110) probs.under
        (match best_tot_under with | some q => some q.2 | none => bookmaker)]

/-- Full candidate assembly of `api_picks_suggest` (lines 647-697):
moneyline, then spread, then total candidates. -/
noncomputable def buildCandidates (home_team away_team sport : String)
    (home_ml away_ml spread total : Option ℝ)
    (src_home src_away : Option String)
    (best_sp_home best_sp_away best_tot_over best_tot_under : Option (ℝ × String))
    (bookmaker : Option String) : List Candidate :=
  mlBlock home_team away_team sport home_ml away_ml src_home src_away ++
  spreadBlock home_team away_team sport spread best_sp_home best_sp_away bookmaker ++
  totalBlock sport total best_tot_over best_tot_under bookmaker

/-- Python `edge_key(c)`: the edge, with `None` mapped to `float('-inf')`
(modelled as the bottom element of `WithBot ℝ`). -/
noncomputable def edge_key (c : Candidate) : WithBot ℝ :=
  match c.edge with
  | some e => (e : WithBot ℝ)
  | none => ⊥

/-- Python `ev_key(c)`: the EV, with `None` mapped to `float('-inf')`. -/
noncomputable def ev_key (c : Candidate) : WithBot ℝ :=
  match c.ev with
  | some e => (e : WithBot ℝ)
  | none => ⊥

/-- Membership test of the `positives` comprehension:
`c.get('edge') is not None and c['edge'] > 0`. -/
noncomputable def hasPosEdge (c : Candidate) : Bool :=
  match c.edge with
  | some e => decide (0 < e)
  | none => false

/-- Python `sorted(l, key=key, reverse=True)`: a stable descending sort on
the key, modelled by insertion sort with the relation
`key b ≤ key a` (elements with equal keys keep their original order). -/
noncomputable def sortDescBy (key : Candidate → WithBot ℝ) (l : List Candidate) :
    List Candidate :=
  @List.insertionSort Candidate (fun a b => key b ≤ key a)
    (fun a b => inferInstance) l

/-- Ranking stage of `api_picks_suggest` (lines 699-709): if any candidate
has positive edge, the top list is the first two positive-edge candidates
sorted by edge descending; otherwise the first two of all candidates
sorted by EV descending. -/
noncomputable def suggest_top (candidates : List Candidate) : List Candidate :=
  let positives := candidates.filter hasPosEdge
  if positives.isEmpty then (sortDescBy ev_key candidates).take 2
  else (sortDescBy edge_key positives).take 2

/-- Ranked list of `api_picks_suggest` (line 712): candidates with a
non-`None` EV, sorted by EV descending. -/
noncomputable def suggest_ranked (candidates : List Candidate) : List Candidate :=
  sortDescBy ev_key (candidates.filter (fun c => c.ev.isSome))

/-- Assembly invariant used by claim C2. -/
def CandInv (c : Candidate) : Prop :=
  c.price.isSome ∧ (c.ev.isSome → c.p_model.isSome) ∧
    (c.edge.isSome → c.p_model.isSome)

/-- Concrete assembled list: a game carrying only a total line of `45.5`,
with best total quotes Over `+120` at BookX and Under `-110` at BookY.
The over candidate has edge `1/2 - 5/11 = 1/22 > 0`; the under candidate
has edge `1/2 - 11/21 = -1/42 < 0`. -/
noncomputable def cexTotCands : List Candidate :=
  buildCandidates "h" "a" "nfl" none none none (some (91/2)) none none
    none none (some (120, "BookX")) (some (-110, "BookY")) none

/-- The over candidate of `cexTotCands`. -/
noncomputable def cexOver : Candidate :=
  mkCandidate "total_over" none none (some (91/2)) 120 (some (1/2)) (some "BookX")

/-- The under candidate of `cexTotCands`. -/
noncomputable def cexUnder : Candidate :=
  mkCandidate "total_under" none none (some (91/2)) (-110) (some (1/2)) (some "BookY")

/-- Concrete assembled list: a game with only a home moneyline of `-110`
(away moneyline missing).  `ml_probability` yields `None`/`None`, so the
single candidate has `p_model = None`. -/
noncomputable def cexMlCands : List Candidate :=
  buildCandidates "h" "a" "nfl" (some (-110)) none none none none none
    none none none none none

/-- A standalone positive-edge candidate used to instantiate the ranking
theorem. -/
noncomputable def candPos : Candidate :=
  { type := "x", team := none, opponent := none, line := none,
    price := some 100, p_model := some (3/5), implied_prob := some (1/2),
    edge := some 1, ev := some 1, ev_per_100 := some 100, kelly := some 0,
    source_book := none }

/-- Bookmaker BookA quoting the moneyline TeamX `-110` / TeamY `-102`. -/
def mlBookA : Bookmaker :=
  ⟨some "BookA", some "bka",
    [⟨"h2h", [⟨some "TeamX", none, some (-110)⟩,
      ⟨some "TeamY", none, some (-102)⟩]⟩]⟩

/-- Bookmaker BookB quoting the moneyline TeamX `-105` / TeamY `-108`. -/
def mlBookB : Bookmaker :=
  ⟨some "BookB", some "bkb",
    [⟨"h2h", [⟨some "TeamX", none, some (-105)⟩,
      ⟨some "TeamY", none, some (-108)⟩]⟩]⟩

/-- Bookmaker BookA quoting the home spread TeamX `-3.5` at `-110`. -/
def spBookA : Bookmaker :=
  ⟨some "BookA", some "bka",
    [⟨"spreads", [⟨some "TeamX", some (-7/2), some (-110)⟩]⟩]⟩

/-- Bookmaker BookB quoting the home spread TeamX `-3.5` at `-105`. -/
def spBookB : Bookmaker :=
  ⟨some "BookB", some "bkb",
    [⟨"spreads", [⟨some "TeamX", some (-7/2), some (-105)⟩]⟩]⟩

/-! ## Helper lemmas -/

theorem get_team_strength_eq (sport team : String) :
    get_team_strength sport team = 1/2 := rfl

theorem strength_delta_eq_zero (sport home away : String) :
    strength_delta sport home away = 0 := sub_self _

theorem erf_zero : erf 0 = 0 := by
  simp [erf]

/-- Python `ev_from_prob_and_odds` written without intermediate bindings. -/
theorem ev_from_prob_and_odds_eq {α : Type*} [LinearOrderedField α] (p odds : α) :
    ev_from_prob_and_odds p odds = p * (american_to_decimal odds - 1) - (1 - p) := rfl

theorem mem_sortDescBy (key : Candidate → WithBot ℝ) (l : List Candidate)
    (c : Candidate) : c ∈ sortDescBy key l ↔ c ∈ l :=
  List.mem_insertionSort _

theorem sorted_sortDescBy (key : Candidate → WithBot ℝ) (l : List Candidate) :
    (sortDescBy key l).Sorted (fun a b => key b ≤ key a) := by
  haveI : IsTotal Candidate (fun a b => key b ≤ key a) :=
    ⟨fun a b => le_total (key b) (key a)⟩
  haveI : IsTrans Candidate (fun a b => key b ≤ key a) :=
    ⟨fun a b c h1 h2 => le_trans h2 h1⟩
  exact List.sorted_insertionSort _ _

theorem take_two_mem (key : Candidate → WithBot ℝ) (l : List Candidate)
    (c : Candidate) (hc : c ∈ (sortDescBy key l).take 2) : c ∈ l :=
  (mem_sortDescBy key l c).mp ((List.take_sublist 2 _).subset hc)

theorem take_two_length (key : Candidate → WithBot ℝ) (l : List Candidate) :
    ((sortDescBy key l).take 2).length = min 2 l.length := by
  rw [List.length_take]
  congr 1
  exact List.length_insertionSort _ _

theorem take_two_sorted (key : Candidate → WithBot ℝ) (l : List Candidate) :
    ((sortDescBy key l).take 2).Sorted (fun a b => key b ≤ key a) :=
  (sorted_sortDescBy key l).sublist (List.take_sublist 2 _)

theorem take_two_maximal (key : Candidate → WithBot ℝ) (l : List Candidate)
    (c : Candidate) (hc : c ∈ l) (hnot : c ∉ (sortDescBy key l).take 2) :
    ∀ d ∈ (sortDescBy key l).take 2, key c ≤ key d := by
  intro d hd
  have hcs : c ∈ sortDescBy key l := (mem_sortDescBy key l c).mpr hc
  have hsplit : sortDescBy key l =
      (sortDescBy key l).take 2 ++ (sortDescBy key l).drop 2 :=
    (List.take_append_drop 2 _).symm
  have hcd : c ∈ (sortDescBy key l).drop 2 := by
    rcases List.mem_append.mp (hsplit ▸ hcs) with h | h
    · exact absurd h hnot
    · exact h
  have hp : List.Pairwise (fun a b => key b ≤ key a)
      ((sortDescBy key l).take 2 ++ (sortDescBy key l).drop 2) := by
    rw [← hsplit]
    exact sorted_sortDescBy key l
  rw [List.pairwise_append] at hp
  exact hp.2.2 d hd c hcd

theorem suggest_top_pos (cl : List Candidate) (h : cl.filter hasPosEdge ≠ []) :
    suggest_top cl = (sortDescBy edge_key (cl.filter hasPosEdge)).take 2 := by
  simp only [suggest_top]
  rw [if_neg]
  simpa [List.isEmpty_iff] using h

theorem suggest_top_empty (cl : List Candidate) (h : cl.filter hasPosEdge = []) :
    suggest_top cl = (sortDescBy ev_key cl).take 2 := by
  simp only [suggest_top]
  rw [if_pos]
  simpa [List.isEmpty_iff] using h

theorem suggest_top_subset (cl : List Candidate) :
    ∀ c ∈ suggest_top cl, c ∈ cl := by
  intro c hc
  by_cases h : cl.filter hasPosEdge = []
  · rw [suggest_top_empty cl h] at hc
    exact take_two_mem ev_key cl c hc
  · rw [suggest_top_pos cl h] at hc
    exact (List.mem_filter.mp (take_two_mem edge_key _ c hc)).1

theorem hasPosEdge_isSome (c : Candidate) (h : hasPosEdge c = true) :
    c.edge.isSome := by
  cases he : c.edge <;> simp [hasPosEdge, he] at h ⊢

theorem mkCandidate_inv (t : String) (tm op : Option String) (ln : Option ℝ)
    (pr : ℝ) (p : Option ℝ) (src : Option String) :
    CandInv (mkCandidate t tm op ln pr p src) := by
  cases p <;> simp [CandInv, mkCandidate]

theorem mlBlock_inv (home away sport : String) (hml aml : Option ℝ)
    (sh sa : Option String) :
    ∀ c ∈ mlBlock home away sport hml aml sh sa, CandInv c := by
  intro c hc
  cases hml <;> cases aml <;> simp [mlBlock] at hc <;>
    rcases hc with rfl | rfl <;> apply mkCandidate_inv

theorem spreadBlock_inv (home away sport : String) (sp : Option ℝ)
    (bh ba : Option (ℝ × String)) (bk : Option String) :
    ∀ c ∈ spreadBlock home away sport sp bh ba bk, CandInv c := by
  intro c hc
  cases sp <;> simp [spreadBlock] at hc
  rcases hc with rfl | rfl <;> apply mkCandidate_inv

theorem totalBlock_inv (sport : String) (tot : Option ℝ)
    (bo bu : Option (ℝ × String)) (bk : Option String) :
    ∀ c ∈ totalBlock sport tot bo bu bk, CandInv c := by
  intro c hc
  cases tot <;> simp [totalBlock] at hc
  rcases hc with rfl | rfl <;> apply mkCandidate_inv

theorem buildCandidates_inv (home away sport : String)
    (hml aml sp tot : Option ℝ) (sh sa : Option String)
    (bsh bsa bto btu : Option (ℝ × String)) (bk : Option String) :
    ∀ c ∈ buildCandidates home away sport hml aml sp tot sh sa bsh bsa bto btu bk,
      CandInv c := by
  intro c hc
  rcases List.mem_append.mp hc with h | h
  · rcases List.mem_append.mp h with h2 | h2
    · exact mlBlock_inv home away sport hml aml sh sa c h2
    · exact spreadBlock_inv home away sport sp bsh bsa bk c h2
  · exact totalBlock_inv sport tot bto btu bk c h

theorem cexTot_eq : cexTotCands = [cexOver, cexUnder] := rfl

theorem implied_prob_120 : implied_prob (120:ℝ) = 5/11 := by
  rw [implied_prob, if_pos (by norm_num : (0:ℝ) ≤ 120)]
  norm_num

theorem implied_prob_neg110 : implied_prob (-110:ℝ) = 11/21 := by
  rw [implied_prob, if_neg (by norm_num : ¬ (0:ℝ) ≤ -110),
    abs_of_neg (by norm_num : (-110:ℝ) < 0)]
  norm_num

theorem hasPosEdge_cexOver : hasPosEdge cexOver = true := by
  have h : cexOver.edge = some (1/2 - implied_prob (120:ℝ)) := rfl
  simp only [hasPosEdge, h, decide_eq_true_eq, implied_prob_120]
  norm_num

theorem hasPosEdge_cexUnder : hasPosEdge cexUnder = false := by
  have h : cexUnder.edge = some (1/2 - implied_prob (-110:ℝ)) := rfl
  simp only [hasPosEdge, h, decide_eq_false_iff_not, implied_prob_neg110]
  norm_num

theorem cexTot_filter : cexTotCands.filter hasPosEdge = [cexOver] := by
  rw [cexTot_eq]
  simp [List.filter_cons, hasPosEdge_cexOver, hasPosEdge_cexUnder]

theorem suggest_top_cexTot : suggest_top cexTotCands = [cexOver] := by
  rw [suggest_top_pos _ (by rw [cexTot_filter]; exact List.cons_ne_nil _ _),
    cexTot_filter]
  rfl

theorem hasPosEdge_candPos : hasPosEdge candPos = true := by
  have h : candPos.edge = some 1 := rfl
  simp only [hasPosEdge, h, decide_eq_true_eq]
  norm_num

theorem a2d_neg110 : american_to_decimal (-110 : ℚ) = 21/11 := by
  rw [american_to_decimal, if_neg (by norm_num : ¬ (0:ℚ) ≤ -110),
    abs_of_neg (by norm_num : (-110:ℚ) < 0)]
  norm_num

theorem a2d_neg105 : american_to_decimal (-105 : ℚ) = 41/21 := by
  rw [american_to_decimal, if_neg (by norm_num : ¬ (0:ℚ) ≤ -105),
    abs_of_neg (by norm_num : (-105:ℚ) < 0)]
  norm_num

theorem a2d_neg102 : american_to_decimal (-102 : ℚ) = 101/51 := by
  rw [american_to_decimal, if_neg (by norm_num : ¬ (0:ℚ) ≤ -102),
    abs_of_neg (by norm_num : (-102:ℚ) < 0)]
  norm_num

theorem a2d_neg108 : american_to_decimal (-108 : ℚ) = 52/27 := by
  rw [american_to_decimal, if_neg (by norm_num : ¬ (0:ℚ) ≤ -108),
    abs_of_neg (by norm_num : (-108:ℚ) < 0)]
  norm_num

theorem norm_TeamX : normalize (some "TeamX") = "teamx" := by decide

theorem norm_TeamY : normalize (some "TeamY") = "teamy" := by decide

/-! ## Claim theorems for the pricing utilities -/

/-- C5: For every `p ∈ [0,1]` and every nonzero American price, with the
default parameters `k = 0.25` and `cap = 0.02`: `kelly_fraction` returns a
value in `[0, cap]`; it returns exactly `0` whenever `b = decimal - 1 ≤ 0`;
otherwise it returns `min(cap, k * max(0, (p*(b+1) - 1)/b))`. -/
theorem C5_kelly_fraction_spec (p odds : ℚ) (hp0 : 0 ≤ p) (hp1 : p ≤ 1)
    (ho : odds ≠ 0) :
    (0 ≤ kelly_fraction p odds (1/4) (1/50) ∧
      kelly_fraction p odds (1/4) (1/50) ≤ 1/50) ∧
    (american_to_decimal odds - 1 ≤ 0 → kelly_fraction p odds (1/4) (1/50) = 0) ∧
    (0 < american_to_decimal odds - 1 →
      kelly_fraction p odds (1/4) (1/50) =
        min (1/50)
          ((1/4) * max 0 ((p * ((american_to_decimal odds - 1) + 1) - 1) /
            (american_to_decimal odds - 1)))) := by
  unfold kelly_fraction
  by_cases hb : american_to_decimal odds - 1 ≤ 0
  · rw [if_pos hb]
    refine ⟨⟨le_refl 0, by norm_num⟩, fun _ => rfl, fun h => absurd h (not_lt.mpr hb)⟩
  · rw [if_neg hb]
    push_neg at hb
    refine ⟨⟨le_min ?_ (by norm_num), min_le_right _ _⟩,
      fun h => absurd h (not_le.mpr hb), fun _ => min_comm _ _⟩
    have h1 : (0:ℚ) ≤ max 0 ((p * ((american_to_decimal odds - 1) + 1) - 1) /
        (american_to_decimal odds - 1)) := le_max_left _ _
    positivity

/-- Witness for C5 at `p = 1/2`, `odds = -110` (so `b = 10/11 > 0`). -/
theorem C5_kelly_fraction_spec_witness :
    (0 ≤ (1/2 : ℚ) ∧ (1/2 : ℚ) ≤ 1 ∧ (-110 : ℚ) ≠ 0) ∧
    ((0 ≤ kelly_fraction (1/2 : ℚ) (-110) (1/4) (1/50) ∧
      kelly_fraction (1/2 : ℚ) (-110) (1/4) (1/50) ≤ 1/50) ∧
    (american_to_decimal (-110 : ℚ) - 1 ≤ 0 →
      kelly_fraction (1/2 : ℚ) (-110) (1/4) (1/50) = 0) ∧
    (0 < american_to_decimal (-110 : ℚ) - 1 →
      kelly_fraction (1/2 : ℚ) (-110) (1/4) (1/50) =
        min (1/50)
          ((1/4) * max 0 (((1/2) * ((american_to_decimal (-110:ℚ) - 1) + 1) - 1) /
            (american_to_decimal (-110:ℚ) - 1))))) :=
  ⟨⟨by norm_num, by norm_num, by norm_num⟩,
    C5_kelly_fraction_spec (1/2) (-110) (by norm_num) (by norm_num) (by norm_num)⟩

/-- C8: Python `remove_vig_two_way(p1, p2)` returns `(p1/s, p2/s)` with
`s = p1 + p2` when `s > 0`, and exactly `(0.5, 0.5)` when `s ≤ 0`;
consequently `remove_vig_two_way(p, p) = (0.5, 0.5)` for every `p > 0`,
and `remove_vig_two_way(0, 0) = (0.5, 0.5)`. -/
theorem C8_remove_vig_spec :
    (∀ p1 p2 : ℚ, 0 < p1 + p2 →
      remove_vig_two_way p1 p2 = (p1 / (p1 + p2), p2 / (p1 + p2))) ∧
    (∀ p1 p2 : ℚ, p1 + p2 ≤ 0 → remove_vig_two_way p1 p2 = (1/2, 1/2)) ∧
    (∀ p : ℚ, 0 < p → remove_vig_two_way p p = (1/2, 1/2)) ∧
    remove_vig_two_way (0 : ℚ) 0 = (1/2, 1/2) := by
  refine ⟨fun p1 p2 h => ?_, fun p1 p2 h => ?_, fun p hp => ?_, ?_⟩
  · simp only [remove_vig_two_way, if_neg (not_le.mpr h)]
  · simp only [remove_vig_two_way, if_pos h]
  · have hs : (0:ℚ) < p + p := by linarith
    simp only [remove_vig_two_way, if_neg (not_le.mpr hs)]
    have hp' : p + p ≠ 0 := ne_of_gt hs
    have h2 : p / (p + p) = 1/2 := by rw [div_eq_iff hp']; ring
    rw [h2]
  · simp [remove_vig_two_way]

/-- Witness for C8 at `(1/3, 1/3)` (positive-sum branch), `(-1, 0)`
(fallback branch) and `p = 2` (equal-pair case). -/
theorem C8_remove_vig_spec_witness :
    (0 < (1/3 : ℚ) + 1/3 ∧
      remove_vig_two_way (1/3 : ℚ) (1/3) = ((1/3) / (1/3 + 1/3), (1/3) / (1/3 + 1/3))) ∧
    ((-1 : ℚ) + 0 ≤ 0 ∧ remove_vig_two_way (-1 : ℚ) 0 = (1/2, 1/2)) ∧
    (0 < (2:ℚ) ∧ remove_vig_two_way (2:ℚ) 2 = (1/2, 1/2)) :=
  ⟨⟨by norm_num, C8_remove_vig_spec.1 (1/3) (1/3) (by norm_num)⟩,
   ⟨by norm_num, C8_remove_vig_spec.2.1 (-1) 0 (by norm_num)⟩,
   ⟨by norm_num, C8_remove_vig_spec.2.2.1 2 (by norm_num)⟩⟩

/-- C10: For `p ∈ (0,1)` and decimal odds `> 1`, `ev_from_prob_and_odds`
is strictly increasing in `p` for a fixed price, and strictly increasing in
the decimal payout for a fixed `p`. -/
theorem C10_ev_strict_mono :
    (∀ odds p1 p2 : ℚ, 0 < p1 → p1 < p2 → p2 < 1 →
      1 < american_to_decimal odds →
      ev_from_prob_and_odds p1 odds < ev_from_prob_and_odds p2 odds) ∧
    (∀ p o1 o2 : ℚ, 0 < p → p < 1 →
      1 < american_to_decimal o1 →
      american_to_decimal o1 < american_to_decimal o2 →
      ev_from_prob_and_odds p o1 < ev_from_prob_and_odds p o2) := by
  constructor
  · intro odds p1 p2 hp1 h12 hp2 hd
    rw [ev_from_prob_and_odds_eq, ev_from_prob_and_odds_eq]
    nlinarith [hd, h12]
  · intro p o1 o2 hp0 hp1 hd1 hd12
    rw [ev_from_prob_and_odds_eq, ev_from_prob_and_odds_eq]
    nlinarith [hd12, hp0]

/-- Witness for C10: monotonicity in `p` at `odds = 110` with
`p1 = 1/4 < p2 = 1/2`, and monotonicity in decimal odds at `p = 1/2` with
`o1 = -110`, `o2 = 110`. -/
theorem C10_ev_strict_mono_witness :
    (0 < (1/4:ℚ) ∧ (1/4:ℚ) < 1/2 ∧ (1/2:ℚ) < 1 ∧
      1 < american_to_decimal (110:ℚ) ∧
      ev_from_prob_and_odds (1/4:ℚ) 110 < ev_from_prob_and_odds (1/2:ℚ) 110) ∧
    (1 < american_to_decimal (-110:ℚ) ∧
      american_to_decimal (-110:ℚ) < american_to_decimal (110:ℚ) ∧
      ev_from_prob_and_odds (1/2:ℚ) (-110) < ev_from_prob_and_odds (1/2:ℚ) 110) :=
  ⟨⟨by norm_num, by norm_num, by norm_num,
      by norm_num [american_to_decimal],
      C10_ev_strict_mono.1 110 (1/4) (1/2) (by norm_num) (by norm_num) (by norm_num)
        (by norm_num [american_to_decimal])⟩,
   ⟨by norm_num [american_to_decimal],
      by norm_num [american_to_decimal],
      C10_ev_strict_mono.2 (1/2) (-110) 110 (by norm_num) (by norm_num)
        (by norm_num [american_to_decimal]) (by norm_num [american_to_decimal])⟩⟩

/-! ## Claim theorems for team strength and probabilities -/

/-- C4: Python `get_team_strength` returns exactly `0.5` for every sport and
team (the `PlayerAnalyzer` class defines no `get_team_strength` method, so
the `try` block always raises and the `except` default is taken), and
therefore `strength_delta` returns exactly `0` for all inputs. -/
theorem C4_team_strength_constant :
    (∀ sport team : String, get_team_strength sport team = 1/2) ∧
    (∀ sport home away : String, strength_delta sport home away = 0) :=
  ⟨get_team_strength_eq, strength_delta_eq_zero⟩

/-- C3 counterexample: the claim asserts that the moneyline prior is the
logistic of the unshifted strength delta, so that equal strengths give a
prior of exactly `0.5`.  For `sport = "nfl"` and the same team on both
sides (strengths equal, delta `0`) the prior computed by the code is
`1 / (1 + exp(3 * 0.5)) ≠ 0.5`: the code shifts the delta by `-0.5` before
applying the logistic. -/
theorem C3_counterexample : prior_home "nfl" "x" "x" ≠ 1/2 := by
  have hsd : strength_delta "nfl" "x" "x" = 0 := strength_delta_eq_zero _ _ _
  have hsl : ML_STRENGTH_SLOPE "nfl" = 3 := rfl
  rw [prior_home, hsd, hsl]
  have h1 : -(3:ℝ) * (0 - 1/2) = 3/2 := by norm_num
  rw [h1]
  intro h
  have hEpos : (0:ℝ) < Real.exp (3/2) := Real.exp_pos _
  rw [div_eq_div_iff (by positivity) (by norm_num)] at h
  have hE1 : Real.exp (3/2) = 1 := by linarith
  rw [Real.exp_eq_one_iff] at hE1
  norm_num at hE1

/-- C3 amended: the prior used by the moneyline estimator is the
logistic of the *shifted* delta: the code computes
`prior_home = 1 / (1 + exp(-slope * (strength_delta - 0.5)))`.  Since
`strength_delta` is identically `0`, the prior equals
`1 / (1 + exp(slope/2))` — not `0.5` — for every matchup.  The blend
equations hold as claimed:
`p_home = w * p_home_fair + (1 - w) * prior_home` and `p_away = 1 - p_home`. -/
theorem C3_ml_probability_blend :
    (∀ (home away sport : String) (hml aml : ℝ),
      ml_probability home away sport (some hml) (some aml) =
        ⟨some (ML_MARKET_WEIGHT sport *
            (remove_vig_two_way (implied_prob hml) (implied_prob aml)).1 +
            (1 - ML_MARKET_WEIGHT sport) * prior_home sport home away),
          some (1 - (ML_MARKET_WEIGHT sport *
            (remove_vig_two_way (implied_prob hml) (implied_prob aml)).1 +
            (1 - ML_MARKET_WEIGHT sport) * prior_home sport home away))⟩) ∧
    (∀ sport home away : String,
      prior_home sport home away =
        1 / (1 + Real.exp (ML_STRENGTH_SLOPE sport / 2))) := by
  refine ⟨fun home away sport hml aml => rfl, fun sport home away => ?_⟩
  rw [prior_home, strength_delta_eq_zero]
  ring_nf

/-- C7: For every posted home spread line and sport,
`spread_cover_probability` returns
`p_home = 1 - Φ((-line)/σ)` with `Φ` the standard Normal CDF computed via
`erf` and `σ` the per-sport calibration constant (`13` for `"nfl"`), and
`p_away = 1 - p_home`; at `line = 0` it returns exactly `0.5 / 0.5`. -/
theorem C7_spread_cover_spec :
    (∀ (line : ℝ) (sport : String),
      spread_cover_probability (some line) sport =
        ⟨some (1 - normCdf ((0 - line) / SPREAD_SIGMA sport)),
          some (1 - (1 - normCdf ((0 - line) / SPREAD_SIGMA sport)))⟩) ∧
    SPREAD_SIGMA "nfl" = 13 ∧
    (∀ sport : String,
      spread_cover_probability (some 0) sport = ⟨some (1/2), some (1/2)⟩) := by
  refine ⟨fun line sport => rfl, rfl, fun sport => ?_⟩
  have hz : ((0:ℝ) - 0) / SPREAD_SIGMA sport = 0 := by norm_num
  have hc : normCdf 0 = 1/2 := by
    rw [normCdf, zero_div, erf_zero]
    norm_num
  rw [spread_cover_probability]
  simp only [hz, hc]
  norm_num

/-- C9: Missing inputs degrade to `None` fields and never raise:
`ml_probability` returns `{None, None}` whenever either moneyline price is
missing, `spread_cover_probability` returns `{None, None}` when the home
line is missing, and `total_over_under_probability` returns `{None, None}`
when the total line is missing and the `{0.5, 0.5}` placeholder when it is
present. -/
theorem C9_missing_inputs_degrade :
    (∀ (home away sport : String) (aml : Option ℝ),
      ml_probability home away sport none aml = ⟨none, none⟩) ∧
    (∀ (home away sport : String) (hml : Option ℝ),
      ml_probability home away sport hml none = ⟨none, none⟩) ∧
    (∀ sport : String, spread_cover_probability none sport = ⟨none, none⟩) ∧
    (∀ sport : String, total_over_under_probability none sport = ⟨none, none⟩) ∧
    (∀ (line : ℝ) (sport : String),
      total_over_under_probability (some line) sport = ⟨some (1/2), some (1/2)⟩) := by
  refine ⟨fun home away sport aml => ?_, fun home away sport hml => ?_,
    fun sport => rfl, fun sport => rfl, fun line sport => rfl⟩
  · cases aml <;> rfl
  · cases hml <;> rfl

/-! ## Claim theorems for the odds-client selectors -/

/-- C6: the moneyline selector (which has the function-local
`from utils.pricing import american_to_decimal`) does return the
highest-decimal-payout quote per side — `(-105, BookB)` beats
`(-110, BookA)` for TeamX, and `(-102, BookA)` beats `(-108, BookB)` for
TeamY.  But the spread selector, the one that matches a requested line
with the `1e-6` tolerance, raises `NameError` as soon as a second quote
matches a side, because `american_to_decimal` is not bound in its scope
(the module imports neither `utils.pricing` nor the name itself): on the
two-book example of the claim it raises instead of returning
`(-105, BookB)`. -/
theorem C6_best_price_selector :
    best_moneyline_prices [mlBookA, mlBookB] "TeamX" "TeamY" =
      (some (-105, "BookB"), some (-102, "BookA")) ∧
    best_spread_prices [spBookA, spBookB] "TeamX" "TeamY"
      (some (-7/2)) (some (7/2)) = .error .nameError := by
  constructor
  · norm_num [best_moneyline_prices, mlBookA, mlBookB, List.foldl_cons,
      List.foldl_nil, mlOutcomeStep, betterQuote, bmTitle, orStr,
      norm_TeamX, norm_TeamY, a2d_neg110, a2d_neg105, a2d_neg102, a2d_neg108,
      show (("teamy":String) = "teamx") = False from eq_false (by decide),
      show (("teamy":String) = "teamy") = True from eq_true rfl,
      show (("teamx":String) = "teamx") = True from eq_true rfl,
      show (("BookA":String) = "") = False from eq_false (by decide),
      show (("BookB":String) = "") = False from eq_false (by decide)]
  · norm_num [best_spread_prices, spBookA, spBookB, List.foldlM_cons,
      List.foldlM_nil, spreadOutcomeStep, spreadSideCheck, spreadBetter,
      lineClose, isclose, bmTitle, orStr, norm_TeamX, norm_TeamY,
      Bind.bind, Except.bind, Pure.pure, Except.pure,
      show (("teamy":String) = "teamx") = False from eq_false (by decide),
      show (("teamx":String) = "teamx") = True from eq_true rfl,
      show (("BookA":String) = "") = False from eq_false (by decide),
      show (("BookB":String) = "") = False from eq_false (by decide)]

/-! ## Claim theorems for the ranking and assembly stage -/

/-- C1 counterexample: for the assembled candidate list of a game with
only a total line (over `+120`, under `-110`), the over candidate has
positive edge (`1/22`) and the under candidate does not (`-1/42`), so the
claimed top list — the 2 candidates with highest edge, sorted descending —
would be `[total_over, total_under]`; the code returns only
`[total_over]`, because only positive-edge candidates are eligible when
any exists. -/
theorem C1_counterexample :
    cexTotCands.filter hasPosEdge ≠ [] ∧
    cexTotCands.map Candidate.type = ["total_over", "total_under"] ∧
    (suggest_top cexTotCands).map Candidate.type = ["total_over"] := by
  refine ⟨?_, rfl, ?_⟩
  · rw [cexTot_filter]
    exact List.cons_ne_nil _ _
  · rw [suggest_top_cexTot]
    rfl

/-- C1 amended: if at least one candidate has positive edge, the top list
consists of `min 2 k` candidates where `k` is the number of positive-edge
candidates, every member has positive edge and comes from the candidate
list, the list is sorted by edge descending, and every positive-edge
candidate left out has edge at most the edge of every member (ties keep
assembly order — the sort is stable on the single key, with no EV
tie-break).  Otherwise the top list is the `min 2 n` candidates with
highest EV (missing EV ranks as minus infinity), sorted by EV descending,
with the same optimality property. -/
theorem C1_top_selection (cl : List Candidate) :
    (cl.filter hasPosEdge ≠ [] →
      (∀ c ∈ suggest_top cl, hasPosEdge c = true ∧ c ∈ cl) ∧
      (suggest_top cl).length = min 2 (cl.filter hasPosEdge).length ∧
      (suggest_top cl).Sorted (fun a b => edge_key b ≤ edge_key a) ∧
      (∀ c ∈ cl, hasPosEdge c = true → c ∉ suggest_top cl →
        ∀ d ∈ suggest_top cl, edge_key c ≤ edge_key d)) ∧
    (cl.filter hasPosEdge = [] →
      (∀ c ∈ suggest_top cl, c ∈ cl) ∧
      (suggest_top cl).length = min 2 cl.length ∧
      (suggest_top cl).Sorted (fun a b => ev_key b ≤ ev_key a) ∧
      (∀ c ∈ cl, c ∉ suggest_top cl →
        ∀ d ∈ suggest_top cl, ev_key c ≤ ev_key d)) := by
  constructor
  · intro hne
    rw [suggest_top_pos cl hne]
    refine ⟨?_, take_two_length _ _, take_two_sorted _ _, ?_⟩
    · intro c hc
      have h2 := List.mem_filter.mp (take_two_mem edge_key _ c hc)
      exact ⟨h2.2, h2.1⟩
    · intro c hcl hpos hnot d hd
      exact take_two_maximal edge_key _ c (List.mem_filter.mpr ⟨hcl, hpos⟩) hnot d hd
  · intro hemp
    rw [suggest_top_empty cl hemp]
    exact ⟨fun c hc => take_two_mem ev_key _ c hc, take_two_length _ _,
      take_two_sorted _ _,
      fun c hcl hnot d hd => take_two_maximal ev_key _ c hcl hnot d hd⟩

/-- Witness for C1 on the singleton list of one positive-edge candidate. -/
theorem C1_top_selection_witness :
    [candPos].filter hasPosEdge ≠ [] ∧
    ((∀ c ∈ suggest_top [candPos], hasPosEdge c = true ∧ c ∈ [candPos]) ∧
      (suggest_top [candPos]).length = min 2 ([candPos].filter hasPosEdge).length ∧
      (suggest_top [candPos]).Sorted (fun a b => edge_key b ≤ edge_key a) ∧
      (∀ c ∈ [candPos], hasPosEdge c = true → c ∉ suggest_top [candPos] →
        ∀ d ∈ suggest_top [candPos], edge_key c ≤ edge_key d)) := by
  have hne : [candPos].filter hasPosEdge ≠ [] := by
    simp [List.filter_cons, hasPosEdge_candPos]
  exact ⟨hne, (C1_top_selection [candPos]).1 hne⟩

/-- C2 counterexample: a game with only a home moneyline of `-110` (the
away price missing) assembles one candidate whose `p_model` is `None`
(`ml_probability` degrades to `None`/`None`), whose price is present, and
whose edge and EV are `None`; no candidate has positive edge, and the
EV-fallback `[:2]` slice still puts this candidate in the top list.  The
claim says a candidate missing its model probability appears in neither
list. -/
theorem C2_counterexample :
    (suggest_top cexMlCands).map Candidate.p_model = [none] ∧
    (suggest_top cexMlCands).map Candidate.price = [some (-110)] :=
  ⟨rfl, rfl⟩

/-- C2 amended: every candidate in the ranked list has a present price,
model probability and EV (candidates with `ev = None` are filtered out of
`ranked`, and the assembly gives every candidate a numeric price and ties
`ev`/`edge` presence to `p_model` presence).  Every top-list candidate has
a present price, and when at least one candidate has positive edge every
top-list candidate also has a present model probability; in the
no-positive-edge fallback a candidate with missing model probability can
reach the top list (see the counterexample), though never the ranked
list. -/
theorem C2_required_inputs (home_team away_team sport : String)
    (home_ml away_ml spread total : Option ℝ)
    (src_home src_away : Option String)
    (bsh bsa bto btu : Option (ℝ × String)) (bookmaker : Option String) :
    (∀ c ∈ suggest_ranked (buildCandidates home_team away_team sport home_ml
        away_ml spread total src_home src_away bsh bsa bto btu bookmaker),
      c.price.isSome ∧ c.p_model.isSome ∧ c.ev.isSome) ∧
    (∀ c ∈ suggest_top (buildCandidates home_team away_team sport home_ml
        away_ml spread total src_home src_away bsh bsa bto btu bookmaker),
      c.price.isSome) ∧
    ((buildCandidates home_team away_team sport home_ml away_ml spread total
        src_home src_away bsh bsa bto btu bookmaker).filter hasPosEdge ≠ [] →
      ∀ c ∈ suggest_top (buildCandidates home_team away_team sport home_ml
        away_ml spread total src_home src_away bsh bsa bto btu bookmaker),
      c.p_model.isSome) := by
  have hinv := buildCandidates_inv home_team away_team sport home_ml away_ml
    spread total src_home src_away bsh bsa bto btu bookmaker
  refine ⟨?_, ?_, ?_⟩
  · intro c hc
    have h1 := (mem_sortDescBy _ _ _).mp hc
    have h2 := List.mem_filter.mp h1
    have hi := hinv c h2.1
    exact ⟨hi.1, hi.2.1 h2.2, h2.2⟩
  · intro c hc
    exact (hinv c (suggest_top_subset _ c hc)).1
  · intro hne c hc
    rw [suggest_top_pos _ hne] at hc
    have h2 := List.mem_filter.mp (take_two_mem edge_key _ c hc)
    exact (hinv c h2.1).2.2 (hasPosEdge_isSome c h2.2)

/-- Witness for C2 on the assembled totals-only game of the
counterexample for C1-style inputs: a positive-edge candidate exists and
every top candidate has a present model probability. -/
theorem C2_required_inputs_witness :
    cexTotCands.filter hasPosEdge ≠ [] ∧
    (∀ c ∈ suggest_top cexTotCands, c.p_model.isSome) := by
  have hne : cexTotCands.filter hasPosEdge ≠ [] := by
    rw [cexTot_filter]
    exact List.cons_ne_nil _ _
  exact ⟨hne, (C2_required_inputs "h" "a" "nfl" none none none (some (91/2))
    none none none none (some (120, "BookX")) (some (-110, "BookY")) none).2.2 hne⟩

end AresStage
